import Mathlib

/-!
Shallow embedding of the rendering-pipeline core of the Egregoria repository:
the mesh builder (`src/engine/src/drawables/lit_mesh.rs`), the depth-pass draw
dispatcher (same file), the UI dual-Kawase blur pass
(`src/engine/src/passes/blur.rs`) and the terrain streaming bridge
(`src/native_app/src/rendering/map_rendering/terrain.rs`).

The embedding keeps vertex payloads and material identifiers abstract (type
parameters `V` and `M`): none of the modelled operations inspects them beyond
moving them around, exactly as in the source, where the mesh/pipeline layer
treats `MeshVertex` data and `MaterialID` opaquely.

Machine integers: Rust `u32` (`IndexType`) values are represented as `Nat`
together with explicit reduction modulo `2 ^ 32` at every point where the
source performs a `u32` cast or where `u32` arithmetic can wrap
(release-build wrapping semantics); a separate predicate records where the
`u32` subtraction in `MeshBuilder::build` would underflow (a panic in debug
builds).
-/

/-- Modulus of Rust `u32` arithmetic (`IndexType = u32`). -/
def u32Mod : Nat := 2 ^ 32

/-- Wrapping `u32` subtraction, as performed by `end - start` in
`MeshBuilder::build` under release semantics. Both arguments are first
reduced to their `u32` value. -/
def wsub (a b : Nat) : Nat := (u32Mod + a % u32Mod - b % u32Mod) % u32Mod

/-- `wgpu::BufferUsages` restricted to the two usages the mesh builder
creates (`BufferUsages::VERTEX` / `BufferUsages::INDEX`). -/
inductive BufferUsages where
  | vertex
  | index
  deriving DecidableEq, Repr

/-- Modelled from the spec: the GPU buffer handle held by a `PBuffer`
(`wgpu::Buffer` behind an `Arc`; the file `src/engine/src/pbuffer.rs` is not
part of the excerpt). Only its byte size is observable to this layer. -/
structure GpuBuffer where
  size : Nat
  deriving DecidableEq, Repr

/-- Modelled from the spec: `PBuffer`, the GPU buffer pool
(`src/engine/src/pbuffer.rs`, not in the excerpt). Per the spec it owns a
resizable GPU buffer (grow-only capacity), `write` uploads data reallocating
if the new size exceeds the capacity, and `inner()` returns the current
buffer handle, or absence if the buffer was never written. -/
structure PBuffer where
  usage : BufferUsages
  capacity : Nat
  inner : Option GpuBuffer
  deriving DecidableEq, Repr

/-- `PBuffer::new(usage)`: fresh pool slot, never written. -/
def PBuffer.new (usage : BufferUsages) : PBuffer :=
  { usage := usage, capacity := 0, inner := none }

/-- Modelled from the spec: `PBuffer::write(gfx, data)` with `data` of
`len` bytes: upload, growing the backing allocation when needed; after any
write, `inner()` is present. -/
def PBuffer.write (b : PBuffer) (len : Nat) : PBuffer :=
  { b with capacity := max b.capacity len, inner := some { size := len } }

/-- `MeshBuilder<const PERSISTENT: bool>` from
`src/engine/src/drawables/lit_mesh.rs`. The const generic is modelled as the
Boolean field `persistent`. `vertices` keeps the vertex payload abstract
(`V`); `indices` holds `u32` values; `materials` is the ordered list of
(material id, starting index offset) pairs. -/
structure MeshBuilder (V M : Type) where
  persistent : Bool
  vertices : List V
  indices : List Nat
  vi_buffers : Option (PBuffer × PBuffer)
  materials : List (M × Nat)
  deriving Repr

/-- Byte stride of `MeshVertex` (position 3 f32, normal 3 f32, uv 2 f32,
tangent 4 f32 = 12 f32 = 48 bytes): the length of
`bytemuck::cast_slice(&self.vertices)` per vertex. -/
def meshVertexStride : Nat := 48

/-- `MeshBuilder::new(mat)`: empty builder with one initial material at
offset 0; a persistent builder owns its vertex/index buffer pair. -/
def MeshBuilder.new (V M : Type) (persistent : Bool) (mat : M) :
    MeshBuilder V M :=
  { persistent := persistent
    vertices := []
    indices := []
    vi_buffers :=
      if persistent then
        some (PBuffer.new .vertex, PBuffer.new .index)
      else none
    materials := [(mat, 0)] }

/-- `MeshBuilder::new_without_mat()`: empty builder with an empty material
list. -/
def MeshBuilder.new_without_mat (V M : Type) (persistent : Bool) :
    MeshBuilder V M :=
  { persistent := persistent
    vertices := []
    indices := []
    vi_buffers :=
      if persistent then
        some (PBuffer.new .vertex, PBuffer.new .index)
      else none
    materials := [] }

/-- `MeshBuilder::clear()`: clears vertices and indices; the recorded
material list is left untouched. -/
def MeshBuilder.clear {V M : Type} (b : MeshBuilder V M) : MeshBuilder V M :=
  { b with vertices := [], indices := [] }

/-- `MeshBuilder::extend(vertices, indices)`: appends the vertices verbatim
and appends each incoming index offset by the vertex count at the time of
the call. The offset is `self.vertices.len() as IndexType` (a `u32` cast)
and the addition is `u32` addition (wrapping, release semantics). -/
def MeshBuilder.extend {V M : Type} (b : MeshBuilder V M) (vs : List V)
    (idxs : List Nat) : MeshBuilder V M :=
  let offset := b.vertices.length % u32Mod
  { b with
    vertices := b.vertices ++ vs
    indices := b.indices ++ idxs.map (fun x => (x % u32Mod + offset) % u32Mod) }

/-- `MeshBuilder::set_material(material)`: records a new material run
starting at the current index count (`self.indices.len() as u32`). -/
def MeshBuilder.set_material {V M : Type} (b : MeshBuilder V M) (mat : M) :
    MeshBuilder V M :=
  { b with materials := b.materials ++ [(mat, b.indices.length % u32Mod)] }

/-- The offset-to-run-length conversion loop of `MeshBuilder::build`: for
each (material, start) pair, the run end is the next recorded offset
(`mats.peek()`), or the total index count for the final entry; the length is
the `u32` difference `end - start` (wrapping here; debug builds panic on
underflow), and zero-length runs are dropped. `total` is
`self.indices.len() as u32`. -/
def buildRuns {M : Type} : List (M × Nat) → Nat → List (M × Nat)
  | [], _ => []
  | (mat, start) :: rest, total =>
    let e := match rest.head? with
      | some (_, x) => x
      | none => total
    let l := wsub e start
    if l = 0 then buildRuns rest total
    else (mat, l) :: buildRuns rest total

/-- Whether the `u32` subtraction `end - start` in the conversion loop of
`MeshBuilder::build` underflows for some entry (end strictly smaller than
start): a panic in debug builds, silent wraparound in release builds. -/
def underflowAt {M : Type} : List (M × Nat) → Nat → Bool
  | [], _ => false
  | (_, start) :: rest, total =>
    let e := match rest.head? with
      | some (_, x) => x
      | none => total
    decide (e % u32Mod < start % u32Mod) || underflowAt rest total

/-- `Mesh` from `src/engine/src/drawables/lit_mesh.rs`: immutable draw unit
holding the two GPU buffers, the (material id, index run length) list, and
the depth-pass skip flag. -/
structure Mesh (M : Type) where
  vertex_buffer : GpuBuffer
  index_buffer : GpuBuffer
  materials : List (M × Nat)
  skip_depth : Bool
  deriving Repr

/-- `MeshBuilder::build(gfx)`: absence for an empty vertex list; otherwise
write the vertex and index bytes to the pair of buffers (the persistent
builder reuses its own pair, the transient one allocates scratch buffers),
convert the material offsets to run lengths dropping empty runs, and return
the mesh provided both buffer handles are present (`inner()?`). For
builders made by the public constructors `persistent` implies the buffer
pair is present; the `getD` models the `unwrap` there. -/
def MeshBuilder.build {V M : Type} (b : MeshBuilder V M) : Option (Mesh M) :=
  if b.vertices.isEmpty then none
  else
    let pair :=
      if b.persistent then
        b.vi_buffers.getD (PBuffer.new .vertex, PBuffer.new .index)
      else (PBuffer.new .vertex, PBuffer.new .index)
    let vbuffer := pair.1.write (meshVertexStride * b.vertices.length)
    let ibuffer := pair.2.write (4 * b.indices.length)
    match vbuffer.inner, ibuffer.inner with
    | some vb, some ib =>
      some
        { vertex_buffer := vb
          index_buffer := ib
          materials := buildRuns b.materials (b.indices.length % u32Mod)
          skip_depth := false }
    | _, _ => none

/-- Sum of the run lengths of a mesh material list. -/
def sumRuns {M : Type} (runs : List (M × Nat)) : Nat :=
  (runs.map Prod.snd).sum

/-- C5: `build()` on a builder with zero vertices returns absence, whatever
the index and material state and whether the builder is persistent or
transient. -/
theorem build_empty_vertices_none {V M : Type} (b : MeshBuilder V M)
    (h : b.vertices = []) : b.build = none := by
  unfold MeshBuilder.build
  rw [h]
  simp

/-- Witness for C5 at a concrete builder: transient, no vertices, yet with
indices and a recorded material. -/
theorem build_empty_vertices_none_witness :
    (⟨false, [], [3, 4], none, [(0, 0)]⟩ : MeshBuilder Unit Nat).vertices
        = [] ∧
      (⟨false, [], [3, 4], none, [(0, 0)]⟩ : MeshBuilder Unit Nat).build
        = none :=
  ⟨rfl, build_empty_vertices_none _ rfl⟩

theorem u32Mod_val : u32Mod = 4294967296 := by norm_num [u32Mod]

theorem wsub_of_le {a b : Nat} (hba : b ≤ a) (ha : a < u32Mod) :
    wsub a b = a - b := by
  have hb : b < u32Mod := lt_of_le_of_lt hba ha
  unfold wsub
  rw [Nat.mod_eq_of_lt ha, Nat.mod_eq_of_lt hb]
  have h1 : u32Mod + a - b = u32Mod + (a - b) := by omega
  rw [h1, Nat.add_mod_left, Nat.mod_eq_of_lt (by omega)]

theorem sumRuns_cons {M : Type} (m : M) (n : Nat) (l : List (M × Nat)) :
    sumRuns ((m, n) :: l) = n + sumRuns l := by
  simp [sumRuns]

theorem buildRuns_cons {M : Type} (m : M) (s : Nat) (rest : List (M × Nat))
    (total : Nat) :
    buildRuns ((m, s) :: rest) total =
      if wsub (match rest.head? with | some (_, x) => x | none => total) s = 0
      then buildRuns rest total
      else
        (m, wsub (match rest.head? with | some (_, x) => x | none => total) s)
          :: buildRuns rest total := rfl

theorem sumRuns_buildRuns_cons {M : Type} (total : Nat) (htot : total < u32Mod) :
    ∀ (rest : List (M × Nat)) (m : M) (s : Nat),
      List.Chain' (fun a b => a ≤ b) (((m, s) :: rest).map Prod.snd) →
      (∀ p ∈ (m, s) :: rest, p.2 ≤ total) →
      sumRuns (buildRuns ((m, s) :: rest) total) = total - s := by
  intro rest
  induction rest with
  | nil =>
    intro m s _ hle
    have hs : s ≤ total := hle (m, s) (by simp)
    rw [buildRuns_cons]
    simp only [List.head?_nil]
    rw [wsub_of_le hs htot]
    by_cases h0 : total - s = 0
    · simp [h0, buildRuns, sumRuns]
    · simp [h0, sumRuns, buildRuns]
  | cons hd2 rest2 ih =>
    intro m s hchain hle
    obtain ⟨m2, s2⟩ := hd2
    have hs2 : s ≤ s2 := by
      rw [List.map_cons, List.map_cons, List.chain'_cons] at hchain
      exact hchain.1
    have hs2total : s2 ≤ total := hle (m2, s2) (by simp)
    have hchain2 : List.Chain' (fun a b => a ≤ b)
        (((m2, s2) :: rest2).map Prod.snd) := by
      rw [List.map_cons, List.map_cons, List.chain'_cons] at hchain
      exact hchain.2
    have ihr := ih m2 s2 hchain2 (fun p hp => hle p (List.mem_cons_of_mem _ hp))
    rw [buildRuns_cons]
    simp only [List.head?_cons]
    rw [wsub_of_le hs2 (lt_of_le_of_lt hs2total htot)]
    by_cases h0 : s2 - s = 0
    · rw [if_pos h0, ihr]
      omega
    · rw [if_neg h0, sumRuns_cons, ihr]
      omega

theorem buildRuns_no_zero {M : Type} :
    ∀ (mats : List (M × Nat)) (total : Nat),
      ∀ r ∈ buildRuns mats total, r.2 ≠ 0 := by
  intro mats
  induction mats with
  | nil => intro total r hr; simp [buildRuns] at hr
  | cons hd rest ih =>
    intro total r hr
    obtain ⟨m, s⟩ := hd
    simp only [buildRuns] at hr
    split at hr
    · exact ih total r hr
    · next hne =>
      rcases List.mem_cons.mp hr with rfl | h
      · exact hne
      · exact ih total r h

theorem build_materials_eq {V M : Type} (b : MeshBuilder V M) (mesh : Mesh M)
    (hbuild : b.build = some mesh) :
    mesh.materials = buildRuns b.materials (b.indices.length % u32Mod) := by
  unfold MeshBuilder.build at hbuild
  by_cases hv : b.vertices.isEmpty
  · rw [if_pos hv] at hbuild
    exact absurd hbuild (by simp)
  · rw [if_neg hv] at hbuild
    simp only [PBuffer.write] at hbuild
    rw [← Option.some.inj hbuild]

/-- C1 (amended: restricted to builders whose recorded material offsets are
a non-empty list starting at 0, non-decreasing, and each at most the index
count, with the index count a `u32` value — exactly the states produced by
`new(mat)` followed by `extend`/`set_material` use): whenever `build()`
returns a mesh, the sum of the run lengths in the mesh's material list
equals the total number of indices stored in the builder, and no run of
length zero appears in that list. -/
theorem build_runs_cover_indices {V M : Type} (b : MeshBuilder V M)
    (mesh : Mesh M)
    (hhead : (b.materials.map Prod.snd).head? = some 0)
    (hchain : List.Chain' (fun x y => x ≤ y) (b.materials.map Prod.snd))
    (hle : ∀ p ∈ b.materials, p.2 ≤ b.indices.length)
    (htot : b.indices.length < u32Mod)
    (hbuild : b.build = some mesh) :
    sumRuns mesh.materials = b.indices.length ∧
      ∀ r ∈ mesh.materials, r.2 ≠ 0 := by
  have hmats := build_materials_eq b mesh hbuild
  rw [Nat.mod_eq_of_lt htot] at hmats
  constructor
  · rw [hmats]
    cases hm : b.materials with
    | nil => rw [hm] at hhead; simp at hhead
    | cons hd rest =>
      obtain ⟨m, s⟩ := hd
      have hs0 : s = 0 := by
        rw [hm] at hhead
        simp at hhead
        omega
      subst hs0
      rw [hm] at hchain hle
      rw [sumRuns_buildRuns_cons b.indices.length htot rest m 0 hchain hle]
      omega
  · intro r hr
    rw [hmats] at hr
    exact buildRuns_no_zero b.materials b.indices.length r hr

/-- Witness for C1's amended theorem at a concrete builder: one vertex, 6
indices, materials `[(0, 0), (1, 2)]`; the built mesh has runs
`[(0, 2), (1, 4)]` summing to 6. -/
theorem build_runs_cover_indices_witness :
    sumRuns
        (⟨{ size := 48 }, { size := 24 }, [((0 : Nat), 2), (1, 4)], false⟩
          : Mesh Nat).materials
        = (⟨false, [()], [0, 0, 0, 0, 0, 0], none,
            [((0 : Nat), 0), (1, 2)]⟩ : MeshBuilder Unit Nat).indices.length ∧
      ∀ r ∈ (⟨{ size := 48 }, { size := 24 }, [((0 : Nat), 2), (1, 4)], false⟩
          : Mesh Nat).materials, r.2 ≠ 0 :=
  build_runs_cover_indices
    (⟨false, [()], [0, 0, 0, 0, 0, 0], none, [((0 : Nat), 0), (1, 2)]⟩
      : MeshBuilder Unit Nat)
    (⟨{ size := 48 }, { size := 24 }, [((0 : Nat), 2), (1, 4)], false⟩
      : Mesh Nat)
    (by simp)
    (by simp)
    (by intro p hp; fin_cases hp <;> simp)
    (by norm_num [u32Mod])
    (by rfl)

/-- The concrete builder refuting C1 as frozen: constructed through the
public interface (`new_without_mat` then one `extend`), it has one vertex,
three indices and an empty material list. -/
def c1CexBuilder : MeshBuilder Unit Nat :=
  (MeshBuilder.new_without_mat Unit Nat false).extend [()] [0, 0, 0]

/-- Counterexample to C1 as frozen ("for every MeshBuilder, however
constructed"): `c1CexBuilder` is built through the public interface,
`build()` returns a mesh, yet the sum of the run lengths (0: the material
list is empty, so there are no runs) differs from the builder's index count
(3). -/
theorem build_runs_cover_indices_cex :
    c1CexBuilder.build.isSome = true ∧
      c1CexBuilder.build.map (fun mesh => sumRuns mesh.materials)
        ≠ some c1CexBuilder.indices.length := by
  constructor
  · rfl
  · intro h
    rw [show c1CexBuilder.build.map (fun mesh => sumRuns mesh.materials)
          = some 0 from rfl] at h
    rw [show c1CexBuilder.indices.length = 3 from rfl] at h
    exact absurd (Option.some.inj h) (by norm_num)

theorem build_map_materials_of_ne_nil {V M : Type} (b : MeshBuilder V M)
    (hv : b.vertices ≠ []) :
    b.build.map Mesh.materials
      = some (buildRuns b.materials (b.indices.length % u32Mod)) := by
  unfold MeshBuilder.build
  rw [if_neg (by simpa using hv)]
  simp [PBuffer.write]

/-- C6: a builder with material offset list `[(A, 0), (B, 4), (C, 4)]` and
10 indices in total builds into the run list `[(A, 4), (C, 6)]`: the run
for `B` is dropped because offsets 4 and 4 coincide, giving it zero
length. -/
theorem build_scenario_runs {V M : Type} (A B C : M) (b : MeshBuilder V M)
    (hm : b.materials = [(A, 0), (B, 4), (C, 4)])
    (hn : b.indices.length = 10)
    (hv : b.vertices ≠ []) :
    b.build.map Mesh.materials = some [(A, 4), (C, 6)] := by
  rw [build_map_materials_of_ne_nil b hv, hm, hn]
  norm_num [buildRuns, wsub, u32Mod]

/-- Witness for C6 at a concrete builder (materials 0, 1, 2 standing for
A, B, C; one vertex; ten indices). -/
theorem build_scenario_runs_witness :
    (⟨false, [()], [0, 0, 0, 0, 0, 0, 0, 0, 0, 0], none,
        [((10 : Nat), 0), (11, 4), (12, 4)]⟩
      : MeshBuilder Unit Nat).build.map Mesh.materials
      = some [(10, 4), (12, 6)] :=
  build_scenario_runs 10 11 12
    (⟨false, [()], [0, 0, 0, 0, 0, 0, 0, 0, 0, 0], none,
        [((10 : Nat), 0), (11, 4), (12, 4)]⟩ : MeshBuilder Unit Nat)
    rfl rfl (by simp)

theorem underflowAt_cons {M : Type} (m : M) (s : Nat) (rest : List (M × Nat))
    (total : Nat) :
    underflowAt ((m, s) :: rest) total =
      (decide ((match rest.head? with | some (_, x) => x | none => total)
            % u32Mod < s % u32Mod)
        || underflowAt rest total) := rfl

theorem underflowAt_false_of_mono {M : Type} (total : Nat)
    (htot : total < u32Mod) :
    ∀ (mats : List (M × Nat)),
      List.Chain' (fun a b => a ≤ b) (mats.map Prod.snd) →
      (∀ p ∈ mats, p.2 ≤ total) →
      underflowAt mats total = false := by
  intro mats
  induction mats with
  | nil => intro _ _; rfl
  | cons hd rest ih =>
    intro hchain hle
    obtain ⟨m, s⟩ := hd
    have hs : s ≤ total := hle (m, s) (by simp)
    have hrest : underflowAt rest total = false := by
      apply ih
      · rw [List.map_cons] at hchain
        exact hchain.tail
      · exact fun p hp => hle p (List.mem_cons_of_mem _ hp)
    rw [underflowAt_cons, hrest, Bool.or_false, decide_eq_false_iff_not]
    have hse : s ≤ (match rest.head? with | some (_, x) => x | none => total) := by
      cases rest with
      | nil => exact hs
      | cons hd2 rest2 =>
        obtain ⟨m2, s2⟩ := hd2
        rw [List.map_cons, List.map_cons, List.chain'_cons] at hchain
        exact hchain.1
    have he : (match rest.head? with | some (_, x) => x | none => total)
        ≤ total := by
      cases rest with
      | nil => exact le_refl total
      | cons hd2 rest2 =>
        obtain ⟨m2, s2⟩ := hd2
        exact hle (m2, s2) (by simp)
    rw [Nat.mod_eq_of_lt (lt_of_le_of_lt he htot),
      Nat.mod_eq_of_lt (lt_of_le_of_lt hs htot)]
    omega

/-- The builder exhibiting, through the public interface only, a material
offset list that makes the run-length subtraction in `build()` underflow:
`new` with material 0, `extend` pushing four indices, `set_material 1`
(recording offset 4), `clear` (which empties vertices and indices but keeps
the material offsets), then `extend` adding one vertex and no indices. -/
def c10BadBuilder : MeshBuilder Unit Nat :=
  ((((MeshBuilder.new Unit Nat false 0).extend [(), (), ()]
        [0, 1, 2, 0]).set_material 1).clear).extend [()] []

/-- C10: under the precondition that the recorded material offsets are
non-decreasing and each at most the (u32) total index count, the u32
subtraction `end - start` performed by the offset-to-run-length conversion
of `build()` never underflows; and the precondition is violable through the
public interface: `c10BadBuilder`, produced by `new`, `extend`,
`set_material`, `clear`, `extend`, reaches a state where the subtraction
underflows (offset 4 recorded before `clear` against a new total of 0). -/
theorem build_sub_underflow_characterization :
    (∀ (V M : Type) (b : MeshBuilder V M),
        List.Chain' (fun x y => x ≤ y) (b.materials.map Prod.snd) →
        (∀ p ∈ b.materials, p.2 ≤ b.indices.length) →
        b.indices.length < u32Mod →
        underflowAt b.materials (b.indices.length % u32Mod) = false) ∧
      underflowAt c10BadBuilder.materials
          (c10BadBuilder.indices.length % u32Mod) = true := by
  constructor
  · intro V M b hchain hle htot
    rw [Nat.mod_eq_of_lt htot]
    exact underflowAt_false_of_mono b.indices.length htot b.materials hchain hle
  · rfl

/-- Witness for C10's universal part at a concrete in-precondition builder
(offsets `[0, 2]`, five indices), paired with the concrete violation. -/
theorem build_sub_underflow_characterization_witness :
    underflowAt
        (⟨false, [()], [0, 0, 0, 0, 0], none, [((0 : Nat), 0), (1, 2)]⟩
          : MeshBuilder Unit Nat).materials
        ((⟨false, [()], [0, 0, 0, 0, 0], none, [((0 : Nat), 0), (1, 2)]⟩
          : MeshBuilder Unit Nat).indices.length % u32Mod) = false ∧
      underflowAt c10BadBuilder.materials
          (c10BadBuilder.indices.length % u32Mod) = true :=
  ⟨build_sub_underflow_characterization.1 Unit Nat
      (⟨false, [()], [0, 0, 0, 0, 0], none, [((0 : Nat), 0), (1, 2)]⟩
        : MeshBuilder Unit Nat)
      (by simp)
      (by intro p hp; fin_cases hp <;> simp)
      (by norm_num [u32Mod]),
    build_sub_underflow_characterization.2⟩

/-- A whole sequence of `extend(vertices, indices)` calls applied in
order. -/
def extendAll {V M : Type} (b : MeshBuilder V M)
    (calls : List (List V × List Nat)) : MeshBuilder V M :=
  calls.foldl (fun acc c => acc.extend c.1 c.2) b

theorem extendAll_cons {V M : Type} (b : MeshBuilder V M)
    (c : List V × List Nat) (cs : List (List V × List Nat)) :
    extendAll b (c :: cs) = extendAll (b.extend c.1 c.2) cs := rfl

theorem extend_preserves_bounds {V M : Type} (b : MeshBuilder V M)
    (vs : List V) (idxs : List Nat)
    (hidx : ∀ x ∈ idxs, x < vs.length)
    (hb : ∀ i ∈ b.indices, i < b.vertices.length) :
    ∀ i ∈ (b.extend vs idxs).indices, i < (b.extend vs idxs).vertices.length := by
  intro i hi
  simp only [MeshBuilder.extend, List.mem_append, List.mem_map] at hi
  simp only [MeshBuilder.extend, List.length_append]
  rcases hi with hi | ⟨x, hx, rfl⟩
  · have := hb i hi
    omega
  · have hxlen : x < vs.length := hidx x hx
    have hxm : x % u32Mod ≤ x := Nat.mod_le _ _
    by_cases hL : b.vertices.length < u32Mod
    · rw [Nat.mod_eq_of_lt hL]
      by_cases hx2 : x % u32Mod + b.vertices.length < u32Mod
      · rw [Nat.mod_eq_of_lt hx2]
        omega
      · have hlt : (x % u32Mod + b.vertices.length) % u32Mod < u32Mod :=
          Nat.mod_lt _ (by norm_num [u32Mod])
        omega
    · have hlt :
          (x % u32Mod + b.vertices.length % u32Mod) % u32Mod < u32Mod :=
        Nat.mod_lt _ (by norm_num [u32Mod])
      omega

/-- C7: after any sequence of `extend` calls on a freshly constructed
builder (empty index list: `new` or `new_without_mat`), provided every
passed index is strictly below the length of that call's vertex slice,
every stored index is strictly below the builder's total vertex count. -/
theorem extendAll_indices_bounded {V M : Type} (b : MeshBuilder V M)
    (hstart : b.indices = [])
    (calls : List (List V × List Nat))
    (hcalls : ∀ c ∈ calls, ∀ x ∈ c.2, x < c.1.length) :
    ∀ i ∈ (extendAll b calls).indices, i < (extendAll b calls).vertices.length := by
  have main : ∀ (cs : List (List V × List Nat)) (b0 : MeshBuilder V M),
      (∀ c ∈ cs, ∀ x ∈ c.2, x < c.1.length) →
      (∀ i ∈ b0.indices, i < b0.vertices.length) →
      ∀ i ∈ (extendAll b0 cs).indices, i < (extendAll b0 cs).vertices.length := by
    intro cs
    induction cs with
    | nil => intro b0 _ hb0; simpa [extendAll] using hb0
    | cons c cs2 ih =>
      intro b0 hc hb0
      rw [extendAll_cons]
      exact ih (b0.extend c.1 c.2)
        (fun c' h => hc c' (List.mem_cons_of_mem _ h))
        (extend_preserves_bounds b0 c.1 c.2 (hc c (List.mem_cons_self _ _)) hb0)
  exact main calls b hcalls (by rw [hstart]; intro i hi; simp at hi)

/-- Witness for C7: `new` then two concrete `extend` calls, checked at the
stored index 2 (the third call pushed local index 0 offset by the two
vertices already present). -/
theorem extendAll_indices_bounded_witness :
    (2 : Nat) <
      (extendAll (MeshBuilder.new Nat Nat false 0)
          [([10, 11], [0, 1]), ([12], [0])]).vertices.length :=
  extendAll_indices_bounded (MeshBuilder.new Nat Nat false 0) rfl
    [([10, 11], [0, 1]), ([12], [0])]
    (by
      intro c hc x hx
      fin_cases hc <;> simp_all
      omega)
    2 (by decide)

/-- `geom::Matrix4`: the shadow-cascade matrix passed to `draw_depth`. Its
entries (f32) are never inspected by the dispatch logic, which only tests
presence (`shadow_cascade.is_some()`); it is therefore modelled as an
empty structure. -/
structure Matrix4 where
  deriving DecidableEq, Repr

/-- Modelled from the spec: `Material` as seen by this layer
(`src/engine/src/material.rs` is not in the excerpt). Per the spec the
mesh/pipeline layer never inspects material contents beyond the
transparency flag and the bind-group handle. -/
structure Material where
  bg : Nat
  transparent : Bool
  deriving DecidableEq, Repr

/-- `MeshPipeline`, the hashable pipeline key of
`src/engine/src/drawables/lit_mesh.rs`. -/
structure MeshPipeline where
  instanced : Bool
  alpha : Bool
  smap : Bool
  depth : Bool
  deriving DecidableEq, Repr

/-- The slice of `GfxContext` the depth-pass dispatcher reads: the material
registry (`gfx.material(id)`), resolving an opaque material id to its bind
group and transparency flag. -/
structure GfxContext (M : Type) where
  material : M → Material

/-- One recorded render-pass or telemetry effect issued by the mesh draw
dispatcher: `wgpu::RenderPass` state changes, indexed draw calls, and
`gfx.perf` counter emissions. -/
inductive Cmd (M : Type) where
  | set_vertex_buffer
  | set_index_buffer
  | set_pipeline (key : MeshPipeline)
  | set_bind_group (slot : Nat) (bg : Nat)
  | draw_indexed (first stop : Nat)
  | depth_drawcall (tris : Nat) (shadow : Bool)
  deriving DecidableEq, Repr

/-- `Mesh::iter_materials()`: turns the run-length list into
(material, index offset, index count) triples, accumulating the offset.
The accumulator is a `u32` (`offset += *n` wraps modulo `2 ^ 32` under
release semantics); `n` is read as its `u32` value. -/
def iterMaterials {M : Type} : List (M × Nat) → Nat → List (M × Nat × Nat)
  | [], _ => []
  | (mat, n) :: rest, offset =>
    (mat, offset, n) :: iterMaterials rest ((offset + n % u32Mod) % u32Mod)

/-- The body of the `for` loop of `Mesh::draw_depth` over
`iter_materials()`: per run, resolve the material, set the depth pipeline
variant keyed on the material's transparency and the presence of a shadow
cascade, bind the material bind group at slot 1 only for transparent
materials, issue one indexed draw over the run's range
(`offset..offset + length`, a `u32` addition that wraps modulo `2 ^ 32`
under release semantics), and emit the depth-pass triangle telemetry. -/
def drawDepthRuns {M : Type} (gfx : GfxContext M) (sc : Option Matrix4) :
    List (M × Nat × Nat) → List (Cmd M)
  | [] => []
  | (mat, offset, length) :: rest =>
    let m := gfx.material mat
    Cmd.set_pipeline
        { instanced := false, alpha := m.transparent, smap := sc.isSome,
          depth := true }
      :: ((if m.transparent then [Cmd.set_bind_group 1 m.bg] else [])
        ++ (Cmd.draw_indexed offset ((offset % u32Mod + length % u32Mod) % u32Mod)
          :: Cmd.depth_drawcall (length / 3) sc.isSome
          :: drawDepthRuns gfx sc rest))

/-- `Mesh::draw_depth(gfx, rp, shadow_cascade)`: early return when
`skip_depth` is set; otherwise bind the mesh's vertex and index buffers
once, then run the per-run loop. The returned list is the sequence of
render-pass state changes, draw calls and telemetry emissions, in order. -/
def Mesh.draw_depth {M : Type} (mesh : Mesh M) (gfx : GfxContext M)
    (shadow_cascade : Option Matrix4) : List (Cmd M) :=
  if mesh.skip_depth then []
  else
    Cmd.set_vertex_buffer :: Cmd.set_index_buffer
      :: drawDepthRuns gfx shadow_cascade (iterMaterials mesh.materials 0)

/-- The indexed-draw ranges occurring in a command sequence, in order. -/
def drawsOf {M : Type} (cs : List (Cmd M)) : List (Nat × Nat) :=
  cs.filterMap fun c => match c with
    | Cmd.draw_indexed a b => some (a, b)
    | _ => none

/-- The pipeline keys set in a command sequence, in order. -/
def pipelinesOf {M : Type} (cs : List (Cmd M)) : List MeshPipeline :=
  cs.filterMap fun c => match c with
    | Cmd.set_pipeline k => some k
    | _ => none

/-- The bind-group bindings performed in a command sequence, in order. -/
def bindGroupsOf {M : Type} (cs : List (Cmd M)) : List (Nat × Nat) :=
  cs.filterMap fun c => match c with
    | Cmd.set_bind_group slot bg => some (slot, bg)
    | _ => none

theorem drawsOf_drawDepthRuns {M : Type} (gfx : GfxContext M)
    (sc : Option Matrix4) :
    ∀ runs : List (M × Nat × Nat),
      drawsOf (drawDepthRuns gfx sc runs)
        = runs.map (fun r =>
            (r.2.1, (r.2.1 % u32Mod + r.2.2 % u32Mod) % u32Mod)) := by
  intro runs
  induction runs with
  | nil => rfl
  | cons r rest ih =>
    obtain ⟨mat, offset, length⟩ := r
    by_cases ht : (gfx.material mat).transparent
    · simp [drawDepthRuns, drawsOf, ht, ih, List.filterMap_append]
      simpa [drawsOf] using ih
    · simp [drawDepthRuns, drawsOf, ht, List.filterMap_append]
      simpa [drawsOf] using ih

theorem pipelinesOf_drawDepthRuns {M : Type} (gfx : GfxContext M)
    (sc : Option Matrix4) :
    ∀ runs : List (M × Nat × Nat),
      pipelinesOf (drawDepthRuns gfx sc runs)
        = runs.map (fun r =>
            ({ instanced := false, alpha := (gfx.material r.1).transparent,
               smap := sc.isSome, depth := true } : MeshPipeline)) := by
  intro runs
  induction runs with
  | nil => rfl
  | cons r rest ih =>
    obtain ⟨mat, offset, length⟩ := r
    by_cases ht : (gfx.material mat).transparent
    · simp [drawDepthRuns, pipelinesOf, ht, List.filterMap_append]
      simpa [pipelinesOf] using ih
    · simp [drawDepthRuns, pipelinesOf, ht, List.filterMap_append]
      simpa [pipelinesOf] using ih

theorem bindGroupsOf_drawDepthRuns {M : Type} (gfx : GfxContext M)
    (sc : Option Matrix4) :
    ∀ runs : List (M × Nat × Nat),
      bindGroupsOf (drawDepthRuns gfx sc runs)
        = (runs.filter (fun r => (gfx.material r.1).transparent)).map
            (fun r => (1, (gfx.material r.1).bg)) := by
  intro runs
  induction runs with
  | nil => rfl
  | cons r rest ih =>
    obtain ⟨mat, offset, length⟩ := r
    by_cases ht : (gfx.material mat).transparent
    · simp [drawDepthRuns, bindGroupsOf, ht, List.filterMap_append]
      simpa [bindGroupsOf] using ih
    · simp [drawDepthRuns, bindGroupsOf, ht, List.filterMap_append]
      simpa [bindGroupsOf] using ih

/-- C8: for a mesh with `skip_depth = false` and any shadow-cascade
argument, `draw_depth` processes the material runs in order: the indexed
draw calls are exactly one per run over the half-open range
`[offset, offset + length)` — the range end being the `u32` sum
`offset + length`, wrapping modulo `2 ^ 32` exactly as the source's
`draw_indexed(offset..offset + length)` does — the pipelines set are
exactly one per run with key (instanced = false, depth = true, alpha = the
run material's transparency, smap = cascade present), and a material bind
group (slot 1) is bound exactly for the transparent runs, in run order. -/
theorem draw_depth_per_run {M : Type} (gfx : GfxContext M) (mesh : Mesh M)
    (sc : Option Matrix4) (hskip : mesh.skip_depth = false) :
    drawsOf (mesh.draw_depth gfx sc)
        = (iterMaterials mesh.materials 0).map
            (fun r => (r.2.1, (r.2.1 % u32Mod + r.2.2 % u32Mod) % u32Mod)) ∧
      pipelinesOf (mesh.draw_depth gfx sc)
        = (iterMaterials mesh.materials 0).map (fun r =>
            ({ instanced := false, alpha := (gfx.material r.1).transparent,
               smap := sc.isSome, depth := true } : MeshPipeline)) ∧
      bindGroupsOf (mesh.draw_depth gfx sc)
        = ((iterMaterials mesh.materials 0).filter
              (fun r => (gfx.material r.1).transparent)).map
            (fun r => (1, (gfx.material r.1).bg)) := by
  unfold Mesh.draw_depth
  rw [if_neg (by rw [hskip]; exact Bool.false_ne_true)]
  refine ⟨?_, ?_, ?_⟩
  · simp [drawsOf, drawsOf_drawDepthRuns gfx sc (iterMaterials mesh.materials 0)]
    simpa [drawsOf] using drawsOf_drawDepthRuns gfx sc (iterMaterials mesh.materials 0)
  · simpa [pipelinesOf] using
      pipelinesOf_drawDepthRuns gfx sc (iterMaterials mesh.materials 0)
  · simpa [bindGroupsOf] using
      bindGroupsOf_drawDepthRuns gfx sc (iterMaterials mesh.materials 0)

/-- Witness for C8 at a concrete mesh of two runs (material 0 transparent
with bind group 5, material 1 opaque), no shadow cascade. -/
theorem draw_depth_per_run_witness :
    drawsOf
        ((⟨{ size := 144 }, { size := 24 }, [(0, 3), (1, 3)], false⟩
            : Mesh Nat).draw_depth
          ⟨fun m => if m = 0 then ⟨5, true⟩ else ⟨6, false⟩⟩ none)
        = [(0, 3), (3, 6)] ∧
      pipelinesOf
          ((⟨{ size := 144 }, { size := 24 }, [(0, 3), (1, 3)], false⟩
              : Mesh Nat).draw_depth
            ⟨fun m => if m = 0 then ⟨5, true⟩ else ⟨6, false⟩⟩ none)
        = [⟨false, true, false, true⟩, ⟨false, false, false, true⟩] ∧
      bindGroupsOf
          ((⟨{ size := 144 }, { size := 24 }, [(0, 3), (1, 3)], false⟩
              : Mesh Nat).draw_depth
            ⟨fun m => if m = 0 then ⟨5, true⟩ else ⟨6, false⟩⟩ none)
        = [(1, 5)] := by
  have h := draw_depth_per_run
    (⟨fun m => if m = 0 then ⟨5, true⟩ else ⟨6, false⟩⟩ : GfxContext Nat)
    (⟨{ size := 144 }, { size := 24 }, [(0, 3), (1, 3)], false⟩ : Mesh Nat)
    none rfl
  exact ⟨h.1.trans (by rfl), h.2.1.trans (by rfl), h.2.2.trans (by rfl)⟩

/-- C9: a mesh with `skip_depth = true` produces an empty command sequence
from `draw_depth`: no draw calls, no pipeline or bind-group or buffer
state changes, and no telemetry, for any materials and any cascade
argument. -/
theorem draw_depth_skip_empty {M : Type} (gfx : GfxContext M) (mesh : Mesh M)
    (sc : Option Matrix4) (hskip : mesh.skip_depth = true) :
    mesh.draw_depth gfx sc = [] := by
  simp [Mesh.draw_depth, hskip]

/-- Witness for C9 at a concrete mesh with materials and a shadow cascade
present. -/
theorem draw_depth_skip_empty_witness :
    ((⟨{ size := 144 }, { size := 24 }, [(0, 3), (1, 6)], true⟩
        : Mesh Nat).draw_depth
        ⟨fun _ => ⟨9, true⟩⟩ (some ⟨⟩)) = [] :=
  draw_depth_skip_empty ⟨fun _ => ⟨9, true⟩⟩
    (⟨{ size := 144 }, { size := 24 }, [(0, 3), (1, 6)], true⟩ : Mesh Nat)
    (some ⟨⟩) rfl

/-- `DOWNSCALE_PASSES` from `src/engine/src/passes/blur.rs`. -/
def DOWNSCALE_PASSES : Nat := 2

/-- `UIBlurPipeline` from `src/engine/src/passes/blur.rs`: the pipeline key
selecting the "downscale" or "upscale" fragment-shader entry point of the
`ui_blur` module. -/
inductive UIBlurPipeline where
  | Downscale
  | Upscale
  deriving DecidableEq, Repr

/-- One recorded effect of the UI blur pass: the mipmap-generation helper
write, bind-group creation (recording which pipeline's layout was requested
and which mip view of the blur texture is sampled), render-pass begin
(recording the mip view attached as the color target), pipeline binding,
and the full-screen triangle draw. -/
inductive BlurCmd where
  | mipmap_one (dstMip : Nat)
  | create_bind_group (layoutOf : UIBlurPipeline) (srcMip : Nat)
  | begin_pass (dstMip : Nat)
  | set_blur_pipeline (p : UIBlurPipeline)
  | draw (first count : Nat)
  deriving DecidableEq, Repr

/-- `do_pass(gfx, encs, pipeline, src, dst)` from
`src/engine/src/passes/blur.rs`: creates a bind group from the layout of
`gfx.get_pipeline(pipeline)` referencing the `src` mip view and the linear
sampler, begins a load-preserving render pass targeting the `dst` mip view,
then sets the pipeline — the source hardcodes
`gfx.get_pipeline(UIBlurPipeline::Downscale)` here, ignoring the `pipeline`
argument it was given — and draws the full-screen triangle (`0..3`). -/
def do_pass (pipeline : UIBlurPipeline) (src dst : Nat) : List BlurCmd :=
  [BlurCmd.create_bind_group pipeline src,
   BlurCmd.begin_pass dst,
   BlurCmd.set_blur_pipeline UIBlurPipeline.Downscale,
   BlurCmd.draw 0 3]

/-- `initial_downscale(gfx, encs, frame)`: the mipmap-generation helper
samples the captured frame (not a blur-texture mip) and writes mip 0 of the
blur texture. -/
def initial_downscale : List BlurCmd :=
  [BlurCmd.mipmap_one 0]

/-- `gen_ui_blur(gfx, encs, frame)`: initial downscale into mip 0, then for
each level `0..DOWNSCALE_PASSES` a downscale pass from level `L` to `L+1`,
then for each level in reverse an upscale pass from level `L+1` to `L`. -/
def gen_ui_blur : List BlurCmd :=
  initial_downscale
    ++ ((List.range DOWNSCALE_PASSES).flatMap fun mip_level =>
        do_pass UIBlurPipeline.Downscale mip_level (mip_level + 1))
    ++ ((List.range DOWNSCALE_PASSES).reverse.flatMap fun mip_level =>
        do_pass UIBlurPipeline.Upscale (mip_level + 1) mip_level)

/-- The pipelines actually bound (`set_pipeline`) over a blur command
sequence, in order. -/
def blurPipelinesSet (cs : List BlurCmd) : List UIBlurPipeline :=
  cs.filterMap fun c => match c with
    | BlurCmd.set_blur_pipeline p => some p
    | _ => none

/-- The blur-texture mip levels written by a blur command sequence (the
mipmap-helper target and every render-pass color attachment), in order. -/
def blurWrites (cs : List BlurCmd) : List Nat :=
  cs.filterMap fun c => match c with
    | BlurCmd.mipmap_one dst => some dst
    | BlurCmd.begin_pass dst => some dst
    | _ => none

/-- The blur-texture mip levels read (bound as the sampled source view) by
a blur command sequence, in order. -/
def blurReads (cs : List BlurCmd) : List Nat :=
  cs.filterMap fun c => match c with
    | BlurCmd.create_bind_group _ src => some src
    | _ => none

/-- C3 (refuted by the code): in `gen_ui_blur`, every pass — including the
upscale passes from levels 2→1 and 1→0, which request the "upscale"
pipeline for their bind-group layout — binds the pipeline compiled from the
"downscale" entry point: `do_pass` hardcodes
`set_pipeline(gfx.get_pipeline(UIBlurPipeline::Downscale))`, so the
"upscale" variant is never bound. -/
theorem gen_ui_blur_upscale_binds_downscale :
    blurPipelinesSet (do_pass UIBlurPipeline.Upscale 2 1)
        = [UIBlurPipeline.Downscale] ∧
      blurPipelinesSet gen_ui_blur
        = List.replicate 4 UIBlurPipeline.Downscale ∧
      UIBlurPipeline.Upscale ∉ blurPipelinesSet gen_ui_blur := by
  refine ⟨rfl, rfl, ?_⟩
  decide

/-- C4 (amended: the actual read/write profile of one `gen_ui_blur`
invocation with N = DOWNSCALE_PASSES = 2, counting the initial downscale,
the N downscale passes and the N upscale passes): mip 0 is written exactly
twice (initial downscale and the final upscale pass) and read exactly once;
the intermediate mip 1 is read exactly twice and written exactly twice; the
deepest mip 2 is read exactly once and written exactly once. -/
theorem gen_ui_blur_mip_traffic :
    (blurWrites gen_ui_blur).count 0 = 2 ∧
      (blurReads gen_ui_blur).count 0 = 1 ∧
      (blurWrites gen_ui_blur).count 1 = 2 ∧
      (blurReads gen_ui_blur).count 1 = 2 ∧
      (blurWrites gen_ui_blur).count 2 = 1 ∧
      (blurReads gen_ui_blur).count 2 = 1 := by
  decide

/-- Counterexample to C4 as frozen: mip level 0 of the blur texture is not
written exactly once per invocation of `gen_ui_blur` — it is written twice
(once by the initial downscale and once by the final upscale pass). -/
theorem gen_ui_blur_mip0_write_cex :
    ¬ (blurWrites gen_ui_blur).count 0 = 1 := by
  decide

/-- Per-frame chunk-update budget of `TerrainRender::update`
(`src/native_app/src/rendering/map_rendering/terrain.rs`), release builds
(`cfg(not(debug_assertions))`). -/
def UPD_PER_FRAME_RELEASE : Nat := 20

/-- Per-frame chunk-update budget of `TerrainRender::update`, debug builds
(`cfg(debug_assertions)`). -/
def UPD_PER_FRAME_DEBUG : Nat := 8

/-- The drain loop of `TerrainRender::update`: while the subscriber yields
a dirty chunk, look it up in the map (`unwrap_retlog!` logs and returns
from `update` when the chunk no longer exists); if `update_chunk`
succeeded, increment `update_count` and break once it exceeds the limit.
`chunks c` models presence of chunk `c` in `map.terrain.chunks`; `updOk c`
models the Boolean result of `EngineTerrainRender::update_chunk`. Returns
the number of applied updates and the chunks still queued. -/
def terrainUpdateLoop {C : Type} (chunks updOk : C → Bool) (limit : Nat) :
    List C → Nat → Nat × List C
  | [], count => (count, [])
  | cell :: pending, count =>
    if chunks cell then
      (if updOk cell then
        (if count + 1 > limit then (count + 1, pending)
         else terrainUpdateLoop chunks updOk limit pending (count + 1))
       else terrainUpdateLoop chunks updOk limit pending count)
    else (count, pending)

/-- `TerrainRender::update(ctx, map)`: drain the pending dirty-chunk queue
with `update_count` starting at 0. -/
def TerrainRender.update {C : Type} (chunks updOk : C → Bool) (limit : Nat)
    (pending : List C) : Nat × List C :=
  terrainUpdateLoop chunks updOk limit pending 0

theorem terrainUpdateLoop_over_budget {C : Type} (chunks updOk : C → Bool)
    (limit : Nat) :
    ∀ (pending : List C) (count : Nat),
      (∀ c ∈ pending, chunks c = true) →
      (∀ c ∈ pending, updOk c = true) →
      count ≤ limit → count + pending.length > limit →
      terrainUpdateLoop chunks updOk limit pending count
        = (limit + 1, pending.drop (limit + 1 - count)) := by
  intro pending
  induction pending with
  | nil =>
    intro count _ _ hc hover
    exfalso
    simp at hover
    omega
  | cons cell pending2 ih =>
    intro count hex hok hc hover
    have hcc : chunks cell = true := hex cell (by simp)
    have hoc : updOk cell = true := hok cell (by simp)
    by_cases hlast : count + 1 > limit
    · have hceq : count = limit := by omega
      simp only [terrainUpdateLoop, hcc, hoc, if_pos hlast, if_true]
      rw [show limit + 1 - count = 1 by omega]
      rw [List.drop_one, List.tail_cons, hceq]
    · have hcount1 : count + 1 ≤ limit := by omega
      have hover2 : count + 1 + pending2.length > limit := by
        simp only [List.length_cons] at hover
        omega
      have hrec := ih (count + 1)
        (fun c h => hex c (List.mem_cons_of_mem _ h))
        (fun c h => hok c (List.mem_cons_of_mem _ h))
        hcount1 hover2
      simp only [terrainUpdateLoop, hcc, hoc, if_neg hlast, if_true]
      rw [hrec]
      rw [show limit + 1 - count = (limit - count) + 1 by omega,
        List.drop_succ_cons,
        show limit - count = limit + 1 - (count + 1) by omega]

/-- C2 (amended: the loop increments before comparing with
`update_count > UPD_PER_FRAME`, so one over-budget call applies `L + 1`
chunk updates, not `L`): if `B` dirty-chunk notifications are pending,
every referenced chunk exists, every per-chunk update succeeds, and
`B > L`, then one call to `TerrainRender::update` applies exactly `L + 1`
chunk updates and leaves exactly `B - (L + 1)` notifications queued. The
limit `L` is `UPD_PER_FRAME_DEBUG = 8` in debug builds and
`UPD_PER_FRAME_RELEASE = 20` in release builds; the statement covers any
limit. -/
theorem terrain_update_budget {C : Type} (chunks updOk : C → Bool)
    (limit : Nat) (pending : List C)
    (hex : ∀ c ∈ pending, chunks c = true)
    (hok : ∀ c ∈ pending, updOk c = true)
    (hover : pending.length > limit) :
    (TerrainRender.update chunks updOk limit pending).1 = limit + 1 ∧
      (TerrainRender.update chunks updOk limit pending).2.length
        = pending.length - (limit + 1) := by
  have h := terrainUpdateLoop_over_budget chunks updOk limit pending 0 hex hok
    (Nat.zero_le _) (by omega)
  unfold TerrainRender.update
  rw [h]
  refine ⟨rfl, ?_⟩
  rw [List.length_drop]
  norm_num

/-- Witness for C2's amended theorem: ten pending chunks, every chunk
present and every update succeeding, against the debug budget 8: nine
updates are applied and one chunk stays queued. -/
theorem terrain_update_budget_witness :
    (TerrainRender.update (fun _ => true) (fun _ => true) UPD_PER_FRAME_DEBUG
          (List.range 10)).1 = UPD_PER_FRAME_DEBUG + 1 ∧
      (TerrainRender.update (fun _ => true) (fun _ => true) UPD_PER_FRAME_DEBUG
          (List.range 10)).2.length = 10 - (UPD_PER_FRAME_DEBUG + 1) := by
  have h := terrain_update_budget (C := Nat) (fun _ => true) (fun _ => true)
    UPD_PER_FRAME_DEBUG (List.range 10)
    (fun c _ => rfl) (fun c _ => rfl) (by decide)
  simpa using h

/-- Counterexample to C2 as frozen: with 10 pending chunks (all present,
all updates succeeding) and the debug-build limit 8, one `update` call
applies 9 chunk updates — not 8 — and leaves 1 queued — not 2; with 25
pending chunks and the release-build limit 20, it applies 21, not 20. -/
theorem terrain_update_budget_cex :
    TerrainRender.update (fun _ => true) (fun _ => true) UPD_PER_FRAME_DEBUG
          (List.range 10) = (9, [9]) ∧
      ¬ (TerrainRender.update (fun _ => true) (fun _ => true)
            UPD_PER_FRAME_DEBUG (List.range 10)).1 = UPD_PER_FRAME_DEBUG ∧
      (TerrainRender.update (fun _ => true) (fun _ => true)
            UPD_PER_FRAME_RELEASE (List.range 25)).1
        = UPD_PER_FRAME_RELEASE + 1 := by
  refine ⟨?_, ?_, ?_⟩ <;> decide
